import Mathlib

/-!
# Verification of the apizza Store Locator & Order/Cart Persistence Engine

A shallow embedding of the cart/order core of the `apizza` repository:

* `src/cmd/cart/cart.go`    — the `Cart` type, order loading/saving, topping
  and product mutation, the topping-spec parser `addTopping`;
* `src/cmd/internal/data/managedb.go` — the storage key namespace
  (`user_order_` keys), `GetOrder`, `SaveOrder`, `PrintOrders`;
* `src/cmd/cart.go`         — the legacy CLI duplicate of the topping parser;
* `src/dawg/user_test.go`   — the test of the store locator (the locator
  implementation itself is outside the extracted sources, so it is modelled
  from the specification, as marked on each such definition).

Go strings are modelled as Lean `String`; Go in-place mutation through
pointers is modelled by explicit state passing (each operation returns the
resulting order/cart next to its error value, mirroring that a Go caller's
order keeps any mutation performed before an error return).
-/

namespace Apizza

instance {ε α : Type} [DecidableEq ε] [DecidableEq α] : DecidableEq (Except ε α) :=
  fun x y =>
    match x, y with
    | .error a, .error b =>
      if h : a = b then isTrue (h ▸ rfl) else isFalse fun hh => h (Except.error.inj hh)
    | .error _, .ok _ => isFalse fun hh => Except.noConfusion hh
    | .ok _, .error _ => isFalse fun hh => Except.noConfusion hh
    | .ok a, .ok b =>
      if h : a = b then isTrue (h ▸ rfl) else isFalse fun hh => h (Except.ok.inj hh)

/-! ## Go string primitives

Structural (fuel-free or fuel-bounded) models of the `strings` package
functions the cart code uses: `strings.Split` with a one-character
separator, `strings.ToLower` (ASCII case folding), `strings.HasPrefix`
and `strings.Replace(s, old, new, -1)` (leftmost, non-overlapping). -/

/-- Go `strings.Split(s, sep)` for a single-character separator: splitting
the empty string gives `[""]`, and every separator occurrence opens a new
field. -/
def splitCh (sep : Char) : List Char → List (List Char)
  | [] => [[]]
  | c :: rest =>
    if c = sep then [] :: splitCh sep rest
    else
      match splitCh sep rest with
      | [] => [[c]]
      | f :: fs => (c :: f) :: fs

/-- Go `strings.ToLower`, at the ASCII level the cart code relies on. -/
def lowerStr (s : String) : String := ⟨s.data.map Char.toLower⟩

/-- Whether `pre` is a prefix of `s` (Go `strings.HasPrefix` on rune lists). -/
def listStarts : List Char → List Char → Bool
  | [], _ => true
  | _ :: _, [] => false
  | p :: ps, c :: cs => if p = c then listStarts ps cs else false

/-- Go `strings.HasPrefix`. -/
def strStarts (s pre : String) : Bool := listStarts pre.data s.data

/-- Fuel-bounded core of Go `strings.Replace(s, old, new, -1)`: at each
position, if `pat` matches there, emit `new` and skip the match, else copy
one character.  The fuel is always instantiated to `s.length`, which
suffices because every step consumes at least one character. -/
def goReplaceAllAux (pat new : List Char) : Nat → List Char → List Char
  | 0, s => s
  | _ + 1, [] => []
  | fuel + 1, c :: rest =>
    if pat ≠ [] ∧ listStarts pat (c :: rest) = true then
      new ++ goReplaceAllAux pat new fuel (List.drop (pat.length - 1) rest)
    else
      c :: goReplaceAllAux pat new fuel rest

/-- Go `strings.Replace(s, old, new, -1)` (= `strings.ReplaceAll`) on rune
lists. -/
def goReplaceAll (s pat new : List Char) : List Char :=
  goReplaceAllAux pat new s.length s

/-- Go `strings.ReplaceAll` on `String`. -/
def goReplaceAllStr (s pat new : String) : String :=
  ⟨goReplaceAll s.data pat.data new.data⟩

/-! ## Topping placement tokens and error strings -/

/-- Modelled from the spec: the `dawg` placement token for whole-pizza
coverage (`dawg.ToppingFull`; the `dawg` constants are not under the
extracted sources). -/
def toppingFull : String := "whole"

/-- Modelled from the spec: the `dawg` placement token for the left half
(`dawg.ToppingLeft`). -/
def toppingLeft : String := "left-half"

/-- Modelled from the spec: the `dawg` placement token for the right half
(`dawg.ToppingRight`). -/
def toppingRight : String := "right-half"

/-- The error text `addTopping` returns on a malformed topping spec
(`src/cmd/cart/cart.go`). -/
def invalidToppingFormat : String := "incorrect topping format"

/-- `cart.ErrNoCurrentOrder` (`src/cmd/cart/cart.go`). -/
def errNoCurrentOrder : String := "cart has no current order set"

/-- `cart.ErrOrderNotFound` (`src/cmd/cart/cart.go`). -/
def errOrderNotFound : String := "could not find that order"

/-! ## The topping-spec parser (`addTopping`, `src/cmd/cart/cart.go`) -/

/-- The `side` mapping inside `addTopping`: the Go `switch` on
`strings.ToLower(side)` that maps the three keywords and leaves every
other literal unchanged. -/
def sideToken (side : String) : String :=
  let l := lowerStr side
  if l = "left" then toppingLeft
  else if l = "right" then toppingRight
  else if l = "full" then toppingFull
  else side

/-- The field-level body of `addTopping` (`src/cmd/cart/cart.go`): given the
colon-split fields, fail when the name field is empty or more than three
fields were supplied, and otherwise build the (name, side, amount) triple
with defaults `whole` and `"1.0"`.  (`strings.Split` never yields an empty
list; the `[]` case is unreachable and mapped to the same error.) -/
def parseFields : List String → Except String (String × String × String)
  | [name] =>
    if name = "" then Except.error invalidToppingFormat
    else Except.ok (name, toppingFull, "1.0")
  | [name, side] =>
    if name = "" then Except.error invalidToppingFormat
    else Except.ok (name, sideToken side, "1.0")
  | [name, side, amount] =>
    if name = "" then Except.error invalidToppingFormat
    else Except.ok (name, sideToken side, amount)
  | _ => Except.error invalidToppingFormat

/-- The colon-split fields of a topping spec (`strings.Split(topStr, ":")`). -/
def fieldsOf (topStr : String) : List String :=
  (splitCh ':' topStr.data).map fun l => (⟨l⟩ : String)

/-- The parsing part of `addTopping` (`src/cmd/cart/cart.go`, lines
232–263): split on `":"`, reject an empty name or more than three fields,
default the side to `dawg.ToppingFull` and the amount to `"1.0"`. -/
def parseToppingSpec (topStr : String) : Except String (String × String × String) :=
  parseFields (fieldsOf topStr)

/-- The legacy CLI duplicate of the parser (`addTopping` in
`src/cmd/cart.go`, lines 120–142): its only guard is `len(topping) < 1`,
which `strings.Split` can never produce, it applies no case mapping to the
side field, and with four or more fields it keeps the second field as the
side and defaults the amount.  It therefore never reports the
invalid-topping-format error. -/
def parseToppingLegacy (topStr : String) : Except String (String × String × String) :=
  match fieldsOf topStr with
  | [] => Except.error invalidToppingFormat
  | [name] => Except.ok (name, toppingFull, "1.0")
  | [name, side, amount] => Except.ok (name, side, amount)
  | name :: side :: _ => Except.ok (name, side, "1.0")

/-! ## The order and item model

`dawg.Order` and `dawg.Item` live outside the extracted sources; their shape
is modelled from spec §3 (a product item is a catalog code with a mapping
from topping code to a placement/amount record; an order is a name, an
address snapshot, a service method and a product sequence). -/

/-- Modelled from the spec: a `dawg` street address (§3 Address) as stored
on an order. -/
structure StreetAddr where
  street : String
  cityName : String
  state : String
  zip : String
deriving DecidableEq

/-- Modelled from the spec: a `dawg` order product item (§3 Product Item):
a catalog code plus the topping-code ↦ (placement, amount) mapping, kept as
an association list with unique keys. -/
structure Item where
  code : String
  opts : List (String × String × String)
deriving DecidableEq

/-- Upsert into the topping mapping: overwrite the entry for `key` if
present (last write wins, spec §3 Topping Placement), else append. -/
def upsertOpt (key : String) (v : String × String) :
    List (String × String × String) → List (String × String × String)
  | [] => [(key, v)]
  | (k, w) :: rest =>
    if k = key then (key, v) :: rest else (k, w) :: upsertOpt key v rest

/-- Modelled from the spec: `dawg.Item.AddTopping(code, side, amount)`
upserts the placement record into the item's topping mapping (§4.2
`ApplyTopping`: "upserts the resulting placement into the item's topping
mapping"). -/
def Item.addToppingOpt (p : Item) (code side amount : String) : Item :=
  { p with opts := upsertOpt code (side, amount) p.opts }

/-- Modelled from the spec: a `dawg` order (§3 Order): name, address
snapshot, service method and product sequence. -/
structure Order where
  orderName : String
  address : Option StreetAddr
  serviceMethod : String
  products : List Item
deriving DecidableEq

/-- `addTopping` (`src/cmd/cart/cart.go`, lines 232–263): parse the spec
string, then apply it to the item via `dawg.Item.AddTopping`.  The guard
(`topping[0] == "" || len(topping) > 3`) fires before any mutation. -/
def addTopping (topStr : String) (p : Item) : Except String Item :=
  match parseToppingSpec topStr with
  | Except.error e => Except.error e
  | Except.ok (name, side, amount) => Except.ok (p.addToppingOpt name side amount)

/-- `getOrderItem` (`src/cmd/cart/cart.go`): linear scan for the first
product item whose code matches. -/
def getOrderItem (o : Order) (code : String) : Option Item :=
  o.products.find? fun itm => itm.code == code

/-- Writing back through the pointer `getOrderItem` returned: replace the
first item whose code matches. -/
def updateFirstItem (code : String) (newItm : Item) : List Item → List Item
  | [] => []
  | itm :: rest =>
    if itm.code == code then newItm :: rest
    else itm :: updateFirstItem code newItm rest

/-- The loop of `addToppingsToOrder` (`src/cmd/cart/cart.go`, lines
190–200): for each spec string, look the product up in the order and add
the topping, stopping at the first error.  The returned order carries every
mutation performed before the error, exactly as the Go caller's
pointed-to order does. -/
def addToppingsLoop (o : Order) (product : String) : List String → Order × Option String
  | [] => (o, none)
  | top :: rest =>
    match getOrderItem o product with
    | none =>
      (o, some ("cannot find '" ++ product ++ "' in the '" ++ o.orderName ++ "' order"))
    | some p =>
      match addTopping top p with
      | Except.error e => (o, some e)
      | Except.ok p2 =>
        addToppingsLoop { o with products := updateFirstItem product p2 o.products } product rest

/-- `addToppingsToOrder` (`src/cmd/cart/cart.go`, lines 186–202). -/
def addToppingsToOrder (o : Order) (product : String) (toppings : List String) :
    Order × Option String :=
  if product = "" then
    (o, some "what product are these toppings being added to")
  else addToppingsLoop o product toppings

/-! ## Menu, database and the Cart -/

/-- Modelled from the spec: the menu catalog (§4.4) as a code ↦ item
mapping. -/
structure Menu where
  variants : List (String × Item)
deriving DecidableEq

/-- Modelled from the spec: `dawg.Menu.GetVariant` (§4.4) resolves a
product code against the catalog and fails when absent. -/
def Menu.getVariant (m : Menu) (code : String) : Except String Item :=
  match m.variants.find? (fun kv => kv.1 == code) with
  | some kv => Except.ok kv.2
  | none => Except.error ("could not find the variant " ++ code)

/-- The persistent key-value store, keyed by string; order values stand for
their serialized form (spec §6: the wire format round-trips every order
field losslessly).  `dbPut` prepends and `dbGet` returns the most recent
binding, giving last-writer-wins. -/
abbrev Database := List (String × Order)

def dbGet (db : Database) (key : String) : Option Order :=
  (db.find? fun kv => kv.1 == key).map fun kv => kv.2

def dbPut (db : Database) (key : String) (v : Order) : Database :=
  (key, v) :: db

/-- `data.OrderPrefix` (`src/cmd/internal/data/managedb.go`): the reserved
storage key namespace for saved orders. -/
def orderKeyStart : String := "user_order_"

/-- Modelled from the spec: `encoding/json.Unmarshal(raw, order)` into a
pre-initialized order.  Every order field is present in the serialized
record (spec §6: serialization "must round-trip all fields in §3
losslessly"), and unmarshalling replaces each field present in the record,
so every field of the target is overwritten by the stored one. -/
def unmarshalInto (raw target : Order) : Order :=
  { target with
    orderName := raw.orderName
    address := raw.address
    serviceMethod := raw.serviceMethod
    products := raw.products }

/-- Effects a cart operation performs against the database/menu cache,
recorded in execution order. -/
inductive Eff
  | updateTS (key : String)
  | menuGetVariant (code : String)
deriving DecidableEq

/-- `cart.Cart` (`src/cmd/cart/cart.go`): the current order, the menu
cache, the database handle and the store finder's current address
(`c.finder.Address()`, the user's live default address). -/
structure Cart where
  currentOrder : Option Order
  menu : Menu
  db : Database
  liveAddr : StreetAddr
deriving DecidableEq

/-- `Cart.GetOrder` (`src/cmd/cart/cart.go`, lines 79–92): read the raw
order at `OrderPrefix+name`; on a missing key fail with
`ErrOrderNotFound`; otherwise `Init` a fresh order, `SetName(name)`, stamp
`order.Address` with the finder's live address, and only then
`json.Unmarshal` the stored record into it. -/
def Cart.getOrder (c : Cart) (name : String) : Except String Order :=
  match dbGet c.db (orderKeyStart ++ name) with
  | none => Except.error errOrderNotFound
  | some raw =>
    let order0 : Order :=
      { orderName := name
        address := some c.liveAddr
        serviceMethod := ""
        products := [] }
    Except.ok (unmarshalInto raw order0)

/-- `data.SaveOrder` (`src/cmd/internal/data/managedb.go`): serialize and
write under `OrderPrefix + o.Name()`. -/
def saveOrder (o : Order) (db : Database) : Database :=
  dbPut db (orderKeyStart ++ o.orderName) o

/-- `Cart.ListOrders` (`src/cmd/cart/cart.go`, lines 108–120): scan the
database keys, keep those with the `user_order_` prefix
(`strings.HasPrefix`), and list each with every occurrence of the prefix
removed (`strings.ReplaceAll`). -/
def Cart.listOrders (c : Cart) : List String :=
  ((c.db.map Prod.fst).filter fun k => strStarts k orderKeyStart).map
    fun k => goReplaceAllStr k orderKeyStart ""

/-- `Cart.AddToppings` (`src/cmd/cart/cart.go`, lines 163–168): fail with
`ErrNoCurrentOrder` when no current order is set; otherwise run
`addToppingsToOrder` on the current order.  No database or menu-cache
effect is performed. -/
def Cart.addToppings (c : Cart) (product : String) (toppings : List String) :
    Cart × Option String × List Eff :=
  match c.currentOrder with
  | none => (c, some errNoCurrentOrder, [])
  | some o =>
    let r := addToppingsToOrder o product toppings
    ({ c with currentOrder := some r.1 }, r.2, [])

/-- The loop of `addProducts` (`src/cmd/cart/cart.go`, lines 204–217):
resolve each code via `menu.GetVariant` and append it to the order
(`dawg.Order.AddProduct` appends, spec §4.2), stopping at the first
error.  Each `GetVariant` query is recorded as an effect. -/
def addProductsLoop (m : Menu) (o : Order) : List String → Order × Option String × List Eff
  | [] => (o, none, [])
  | code :: rest =>
    match m.getVariant code with
    | Except.error e => (o, some e, [Eff.menuGetVariant code])
    | Except.ok itm =>
      let r := addProductsLoop m { o with products := o.products ++ [itm] } rest
      (r.1, r.2.1, Eff.menuGetVariant code :: r.2.2)

/-- `Cart.AddProducts` (`src/cmd/cart/cart.go`, lines 171–179): fail with
`ErrNoCurrentOrder` when no current order is set; otherwise call
`c.db.UpdateTS("menu", c)` (the staleness-checked menu-cache refresh,
recorded as the `updateTS` effect) and then resolve and append the
products. -/
def Cart.addProducts (c : Cart) (products : List String) :
    Cart × Option String × List Eff :=
  match c.currentOrder with
  | none => (c, some errNoCurrentOrder, [])
  | some o =>
    let r := addProductsLoop c.menu o products
    ({ c with currentOrder := some r.1 }, r.2.1, Eff.updateTS "menu" :: r.2.2)

/-- Modelled from the spec: the outcome of `dawg.Order.Validate` (§4.2):
fully valid, a non-fatal `Warning`, or a hard validation error. -/
inductive ValidationResult
  | valid
  | warning (msg : String)
  | invalid (msg : String)
deriving DecidableEq

/-- `Cart.Validate` (`src/cmd/cart/cart.go`, lines 136–147): fail with
`ErrNoCurrentOrder` when no current order is set; otherwise run the
order's domain validation (`vo`, an external collaborator) and treat a
`Warning` as success. -/
def Cart.validate (c : Cart) (vo : Order → ValidationResult) :
    Option String × List Eff :=
  match c.currentOrder with
  | none => (some errNoCurrentOrder, [])
  | some o =>
    match vo o with
    | ValidationResult.valid => (none, [])
    | ValidationResult.warning _ => (none, [])
    | ValidationResult.invalid e => (some e, [])

/-! ## The dawg store locator (modelled from the spec)

The locator implementation (`dawg/user.go`) is not among the extracted
sources — only its test `src/dawg/user_test.go` is — so the locator is
modelled from spec §3 (User, Store), §4.3 (NearestStore, SetServiceMethod)
and §9 (the memo is keyed by the (address, serviceMethod) pair it was
computed under). -/

/-- Modelled from the spec: a user profile address (`dawg.UserAddress`). -/
structure UserAddress where
  street : String
  cityName : String
  state : String
  zip : String
deriving DecidableEq

/-- Modelled from the spec: a resolved store (§3 Store, §4.3
StoresNearMe): the fulfillment location (`storeID`), an allocation handle
distinguishing the lookup that produced it (pointer identity), and the
address and service method it was retrieved for. -/
structure DawgStore where
  handle : Nat
  storeID : Nat
  userAddress : UserAddress
  userService : String
deriving DecidableEq

/-- Modelled from the spec: `dawg.UserProfile` (§3 User): addresses (the
first is the default), the selected service method (`""` is the distinct
unset state) and the memoized nearest store. -/
structure UserProfile where
  addresses : List UserAddress
  serviceMethod : String
  store : Option DawgStore
deriving DecidableEq

/-- The locator state: the user plus the number of proximity lookups
performed so far against the external ordering API. -/
structure LocatorState where
  user : UserProfile
  lookups : Nat
deriving DecidableEq

/-- Modelled from the spec: `DefaultAddress` returns the first address, or
none when the list is empty (§3, §8). -/
def defaultAddress (u : UserProfile) : Option UserAddress :=
  u.addresses.head?

/-- Modelled from the spec: the valid service methods are the finite
enumeration {Delivery, Carryout} (§4.3). -/
def validServiceMethod (m : String) : Bool :=
  m == "Delivery" || m == "Carryout"

/-- Modelled from the spec: `dawg.ErrBadService`. -/
def errBadService : String := "bad service method"

/-- Modelled from the spec: the `NoAddress` failure of `NearestStore`. -/
def errNoAddress : String := "no address"

/-- One proximity lookup against the external ordering API
(`FindNearestStore`, §6): `env` gives the store the API returns for an
(address, method) pair; the locator annotates it with the pair and a fresh
allocation handle, memoizes it on the user and counts the lookup. -/
def performLookup (env : UserAddress → String → Nat) (st : LocatorState)
    (addr : UserAddress) (m : String) : DawgStore × LocatorState :=
  let s : DawgStore :=
    { handle := st.lookups
      storeID := env addr m
      userAddress := addr
      userService := m }
  (s, { user := { st.user with store := some s }, lookups := st.lookups + 1 })

/-- Modelled from the spec: `NearestStore(serviceMethod)` (§4.3): fails
with `NoAddress` without an address and `BadServiceMethod` on an invalid
method; returns the memoized store when it was computed for the same
(default address, method) pair, and otherwise performs and memoizes a new
proximity lookup. -/
def nearestStore (env : UserAddress → String → Nat) (st : LocatorState)
    (m : String) : Except String (DawgStore × LocatorState) :=
  match defaultAddress st.user with
  | none => Except.error errNoAddress
  | some addr =>
    if validServiceMethod m then
      match st.user.store with
      | some s =>
        if s.userAddress = addr ∧ s.userService = m then Except.ok (s, st)
        else Except.ok (performLookup env st addr m)
      | none => Except.ok (performLookup env st addr m)
    else Except.error errBadService

/-- Modelled from the spec: `SetServiceMethod(method)` (§4.3): validate
against {Delivery, Carryout}; fail with `BadServiceMethod` and leave the
user unchanged on any other value. -/
def setServiceMethod (u : UserProfile) (m : String) : UserProfile × Option String :=
  if validServiceMethod m then ({ u with serviceMethod := m }, none)
  else (u, some errBadService)

/-! ## Concrete fixtures

Small concrete values used to evaluate the code on specific inputs. -/

/-- A product item with code `"X"` and no toppings yet. -/
def itemX : Item := { code := "X", opts := [] }

/-- An order `"o"` holding the single product `"X"`. -/
def orderWithX : Order :=
  { orderName := "o", address := none, serviceMethod := "", products := [itemX] }

/-- A cart whose current order is `orderWithX`. -/
def cartWithX : Cart :=
  { currentOrder := some orderWithX
    menu := ⟨[("P", { code := "P", opts := [] })]⟩
    db := []
    liveAddr := ⟨"", "", "", ""⟩ }

/-- The address saved with the order `"pizza1"`. -/
def addrA : StreetAddr := ⟨"1600 street a", "cityville", "CA", "11111"⟩

/-- The user's live default address at load time, different from `addrA`. -/
def addrB : StreetAddr := ⟨"99 street b", "otherton", "NY", "22222"⟩

/-- The order `"pizza1"` as it was saved: its address snapshot is
`addrA`. -/
def savedPizza1 : Order :=
  { orderName := "pizza1"
    address := some addrA
    serviceMethod := "Delivery"
    products := [itemX] }

/-- A cart over a database holding exactly the saved `"pizza1"` order,
whose store finder now reports the live default address `addrB`. -/
def cartAfterSave : Cart :=
  { currentOrder := none
    menu := ⟨[]⟩
    db := saveOrder savedPizza1 []
    liveAddr := addrB }

/-- A user profile with one address and the Delivery method selected. -/
def userW : UserProfile :=
  { addresses := [⟨"s", "c", "st", "z"⟩], serviceMethod := "Delivery", store := none }

/-- A locator state for `userW` with no lookups performed yet. -/
def locatorW : LocatorState := { user := userW, lookups := 0 }

/-- An external ordering API that serves store number 7 for every
query. -/
def envW : UserAddress → String → Nat := fun _ _ => 7

end Apizza

namespace Apizza

/-! ## Helper lemmas -/

theorem splitCh_ne_nil (sep : Char) (l : List Char) : splitCh sep l ≠ [] := by
  induction l with
  | nil => simp [splitCh]
  | cons c rest ih =>
    simp only [splitCh]
    by_cases h : c = sep
    · simp [h]
    · simp only [h, if_false]
      cases hs : splitCh sep rest with
      | nil => simp
      | cons f fs => simp

theorem fieldsOf_ne_nil (s : String) : fieldsOf s ≠ [] := by
  unfold fieldsOf
  intro h
  exact splitCh_ne_nil ':' s.data (List.map_eq_nil_iff.mp h)

/-! ## Claim theorems -/

/-- The legacy CLI duplicate accepts every spec the spec-described parser
rejects: an empty name and a four-field spec both succeed, and the side
field is not case-mapped.  (Recorded to document that the two `addTopping`
copies in the sources diverge; the Cart engine uses the
`src/cmd/cart/cart.go` copy, which is the one spec §4.1 describes.) -/
theorem parseToppingLegacy_never_fails :
    parseToppingLegacy "" = Except.ok ("", toppingFull, "1.0") ∧
    parseToppingLegacy "a:b:c:d" = Except.ok ("a", "b", "1.0") ∧
    parseToppingLegacy "olive:LEFT" = Except.ok ("olive", "LEFT", "1.0") := by
  decide

/-- C4: for every input string, the topping spec parser fails with the
invalid-topping-format error exactly when the colon-delimited name field
(the first field) is empty or when the string splits into more than three
colon-delimited fields; on every other input it succeeds. -/
theorem c4_parse_fails_iff (s : String) :
    (parseToppingSpec s = Except.error invalidToppingFormat ↔
      (fieldsOf s).head? = some "" ∨ 3 < (fieldsOf s).length) ∧
    (¬((fieldsOf s).head? = some "" ∨ 3 < (fieldsOf s).length) →
      ∃ t, parseToppingSpec s = Except.ok t) := by
  have hne := fieldsOf_ne_nil s
  unfold parseToppingSpec
  rcases hl : fieldsOf s with _ | ⟨a, _ | ⟨b, _ | ⟨c, _ | ⟨d, rest⟩⟩⟩⟩
  · exact absurd hl hne
  · by_cases ha : a = "" <;> simp [parseFields, ha]
  · by_cases ha : a = "" <;> simp [parseFields, ha]
  · by_cases ha : a = "" <;> simp [parseFields, ha]
  · simp [parseFields]

/-- Witness for C4: the four-field spec `"a:b:c:d"` is rejected with the
invalid-topping-format error, and the two-field spec `"olive:left"` is
accepted. -/
theorem c4_parse_fails_iff_witness :
    parseToppingSpec "a:b:c:d" = Except.error invalidToppingFormat ∧
    ∃ t, parseToppingSpec "olive:left" = Except.ok t :=
  ⟨(c4_parse_fails_iff "a:b:c:d").1.mpr (by decide),
   (c4_parse_fails_iff "olive:left").2 (by decide)⟩

/-- C5: the topping spec parser maps a single-field input to placement
whole and amount `"1.0"`, a two-field input to the given (mapped) side
with amount `"1.0"`, and a three-field input to the given side and the
third field verbatim as the amount; in particular `"pepperoni"` parses to
(pepperoni, whole, "1.0"), `"olive:left"` to (olive, left-half, "1.0")
and `"basil:right:0.5"` to (basil, right-half, "0.5"). -/
theorem c5_parse_defaults :
    parseToppingSpec "pepperoni" = Except.ok ("pepperoni", toppingFull, "1.0") ∧
    parseToppingSpec "olive:left" = Except.ok ("olive", toppingLeft, "1.0") ∧
    parseToppingSpec "basil:right:0.5" = Except.ok ("basil", toppingRight, "0.5") ∧
    (∀ name side amount : String, name ≠ "" →
      parseFields [name] = Except.ok (name, toppingFull, "1.0") ∧
      parseFields [name, side] = Except.ok (name, sideToken side, "1.0") ∧
      parseFields [name, side, amount] = Except.ok (name, sideToken side, amount)) := by
  refine ⟨by decide, by decide, by decide, ?_⟩
  intro name side amount h
  exact ⟨by simp [parseFields, h], by simp [parseFields, h], by simp [parseFields, h]⟩

/-- Witness for C5: the general clauses instantiated at a concrete
three-field spec. -/
theorem c5_parse_defaults_witness :
    parseFields ["basil", "right", "0.5"]
      = Except.ok ("basil", sideToken "right", "0.5") :=
  (c5_parse_defaults.2.2.2 "basil" "right" "0.5" (by decide)).2.2

/-- C6: for every two-or-three-field topping spec, the side field is
mapped case-insensitively — any casing of "left" yields left-half,
"right" yields right-half, "full" yields whole — and every other side
literal is passed through unchanged as the placement token without
validation. -/
theorem c6_side_mapping (side : String) :
    (lowerStr side = "left" → sideToken side = toppingLeft) ∧
    (lowerStr side = "right" → sideToken side = toppingRight) ∧
    (lowerStr side = "full" → sideToken side = toppingFull) ∧
    (lowerStr side ≠ "left" → lowerStr side ≠ "right" → lowerStr side ≠ "full" →
      sideToken side = side) ∧
    (∀ name amount : String, name ≠ "" →
      parseFields [name, side] = Except.ok (name, sideToken side, "1.0") ∧
      parseFields [name, side, amount] = Except.ok (name, sideToken side, amount)) := by
  refine ⟨fun h => by simp [sideToken, h], fun h => by simp [sideToken, h],
    fun h => by simp [sideToken, h], fun h1 h2 h3 => by simp [sideToken, h1, h2, h3],
    fun name amount h => ⟨by simp [parseFields, h], by simp [parseFields, h]⟩⟩

/-- Witness for C6: `"LeFt"` (a mixed casing of "left") maps to the
left-half token, and the unknown literal `"pepperjack"` passes through
unchanged. -/
theorem c6_side_mapping_witness :
    sideToken "LeFt" = toppingLeft ∧ sideToken "pepperjack" = "pepperjack" :=
  ⟨(c6_side_mapping "LeFt").1 (by decide),
   (c6_side_mapping "pepperjack").2.2.2.1 (by decide) (by decide) (by decide)⟩

/-- C3 counterexample: on the order holding only product `"X"`, adding the
topping list `["pepperoni", "a:b:c:d"]` reports the invalid-topping-format
error for the second spec, yet the order has been mutated — the first
topping was already applied, so partial mutation does occur. -/
theorem c3_counterexample :
    (addToppingsToOrder orderWithX "X" ["pepperoni", "a:b:c:d"]).2
      = some invalidToppingFormat ∧
    (addToppingsToOrder orderWithX "X" ["pepperoni", "a:b:c:d"]).1 ≠ orderWithX := by
  decide

/-- C3 (amended): a failing topping addition reports the error immediately
and leaves the order unchanged whenever the failure hits the first spec
processed — in particular for a single-spec list, and for any list when
the product code is absent from the order; a later failing spec leaves the
earlier toppings applied. -/
theorem c3_amended_no_mutation (o : Order) (product top : String) (tops : List String) :
    ((addToppingsToOrder o product [top]).2.isSome →
      (addToppingsToOrder o product [top]).1 = o) ∧
    (getOrderItem o product = none → (addToppingsToOrder o product tops).1 = o) := by
  constructor
  · intro hsome
    by_cases hp : product = ""
    · simp [addToppingsToOrder, hp]
    · simp only [addToppingsToOrder, hp, if_false] at hsome ⊢
      unfold addToppingsLoop at hsome ⊢
      cases hgi : getOrderItem o product with
      | none => simp [hgi]
      | some p =>
        cases hat : addTopping top p with
        | error e => simp [hgi, hat]
        | ok p2 => simp [hgi, hat, addToppingsLoop] at hsome
  · intro hgi
    by_cases hp : product = ""
    · simp [addToppingsToOrder, hp]
    · cases tops with
      | nil => simp [addToppingsToOrder, hp, addToppingsLoop]
      | cons t ts => simp [addToppingsToOrder, hp, addToppingsLoop, hgi]

/-- Witness for C3 (amended): adding to the empty product name fails and
leaves the concrete order unchanged. -/
theorem c3_amended_no_mutation_witness :
    (addToppingsToOrder orderWithX "" ["pepperoni"]).1 = orderWithX :=
  (c3_amended_no_mutation orderWithX "" "pepperoni" []).1 (by decide)

/-- C9: on a cart whose current order is unset, `AddToppings`,
`AddProducts` and `Validate` each fail with the distinct
`ErrNoCurrentOrder` error, leaving the cart unchanged and performing no
database or menu-cache effect. -/
theorem c9_no_current_order (menu : Menu) (db : Database) (la : StreetAddr)
    (product : String) (tops prods : List String)
    (vo : Order → ValidationResult) :
    Cart.addToppings ⟨none, menu, db, la⟩ product tops
      = (⟨none, menu, db, la⟩, some errNoCurrentOrder, []) ∧
    Cart.addProducts ⟨none, menu, db, la⟩ prods
      = (⟨none, menu, db, la⟩, some errNoCurrentOrder, []) ∧
    Cart.validate ⟨none, menu, db, la⟩ vo = (some errNoCurrentOrder, []) ∧
    errNoCurrentOrder ≠ errOrderNotFound :=
  ⟨rfl, rfl, rfl, by decide⟩

/-- C2 counterexample: on a cart with a current order, a successful
`AddToppings` performs no `updateTS` effect on the menu entry at all —
contrary to the claim that both `AddProducts` and `AddToppings` trigger
the staleness-checked menu-cache refresh. -/
theorem c2_counterexample :
    (Cart.addToppings cartWithX "X" ["pepperoni"]).2.1 = none ∧
    (Cart.addToppings cartWithX "X" ["pepperoni"]).2.2 = [] ∧
    Eff.updateTS "menu" ∉ (Cart.addToppings cartWithX "X" ["pepperoni"]).2.2 := by
  decide

/-- C2 (amended): `Cart.AddProducts` triggers the staleness-checked
menu-cache refresh (`UpdateTS` on the `"menu"` entry) before resolving any
product code, while `Cart.AddToppings` performs no menu-cache refresh —
it resolves toppings against the current order only. -/
theorem c2_amended_refresh (c : Cart) (o : Order) (h : c.currentOrder = some o)
    (prods : List String) (product : String) (tops : List String) :
    ((Cart.addProducts c prods).2.2).head? = some (Eff.updateTS "menu") ∧
    (Cart.addToppings c product tops).2.2 = [] := by
  constructor
  · simp [Cart.addProducts, h]
  · cases hc : c.currentOrder <;> simp [Cart.addToppings, hc]

/-- Witness for C2 (amended): instantiated on the concrete cart holding
`orderWithX`. -/
theorem c2_amended_refresh_witness :
    ((Cart.addProducts cartWithX ["P"]).2.2).head? = some (Eff.updateTS "menu") ∧
    (Cart.addToppings cartWithX "X" ["pepperoni"]).2.2 = [] :=
  c2_amended_refresh cartWithX orderWithX rfl ["P"] "X" ["pepperoni"]

/-- C10: `Cart.ListOrders` lists exactly the database keys beginning with
`user_order_`, each with every occurrence of the substring `user_order_`
removed — so a saved order whose name contains `user_order_` internally
is listed under a mangled name rather than its stored name (the key
`user_order_xuser_order_y`, i.e. the saved name `xuser_order_y`, is
listed as `xy`). -/
theorem c10_list_orders (db : Database) (menu : Menu) (la : StreetAddr) :
    (∀ n, n ∈ Cart.listOrders ⟨none, menu, db, la⟩ →
      ∃ k, k ∈ db.map Prod.fst ∧ strStarts k orderKeyStart = true ∧
        n = goReplaceAllStr k orderKeyStart "") ∧
    (∀ k, k ∈ db.map Prod.fst → strStarts k orderKeyStart = true →
      goReplaceAllStr k orderKeyStart "" ∈ Cart.listOrders ⟨none, menu, db, la⟩) ∧
    Cart.listOrders ⟨none, ⟨[]⟩, [(orderKeyStart ++ "xuser_order_y", orderWithX)], ⟨"", "", "", ""⟩⟩
      = ["xy"] ∧
    ("xy" : String) ≠ "xuser_order_y" := by
  refine ⟨?_, ?_, by decide, by decide⟩
  · intro n hn
    simp only [Cart.listOrders] at hn
    obtain ⟨k, hk, hrepl⟩ := List.mem_map.mp hn
    have hk2 := List.mem_filter.mp hk
    exact ⟨k, hk2.1, hk2.2, hrepl.symm⟩
  · intro k hk hpre
    simp only [Cart.listOrders]
    exact List.mem_map.mpr ⟨k, List.mem_filter.mpr ⟨hk, hpre⟩, rfl⟩

/-- Witness for C10: instantiated on a one-order database holding
`"pizza1"`. -/
theorem c10_list_orders_witness :
    goReplaceAllStr "user_order_pizza1" orderKeyStart ""
      ∈ Cart.listOrders ⟨none, ⟨[]⟩, [("user_order_pizza1", orderWithX)], ⟨"", "", "", ""⟩⟩ :=
  (c10_list_orders [("user_order_pizza1", orderWithX)] ⟨[]⟩ ⟨"", "", "", ""⟩).2.1
    "user_order_pizza1" (by decide) (by decide)

/-- C1, evaluated at the failing input: the order `"pizza1"` was saved
with address snapshot `addrA`; at load time the live default address is
`addrB ≠ addrA`; yet `Cart.GetOrder` returns the order with address
`addrA` — the stamped live address is clobbered because `json.Unmarshal`
runs after the name/address stamping, so the persisted snapshot, not the
live default address, is what the caller observes. -/
theorem c1_address_not_restamped :
    Cart.getOrder cartAfterSave "pizza1" = Except.ok savedPizza1 ∧
    savedPizza1.address = some addrA ∧
    cartAfterSave.liveAddr = addrB ∧
    addrA ≠ addrB := by
  decide

/-- C8: for every value outside the enumeration {Delivery, Carryout},
including the empty string, `SetServiceMethod` fails with the
`BadServiceMethod` error and leaves the user — in particular the current
service method — unchanged. -/
theorem c8_set_service_method (u : UserProfile) (m : String)
    (h1 : m ≠ "Delivery") (h2 : m ≠ "Carryout") :
    setServiceMethod u m = (u, some errBadService) := by
  have hv : validServiceMethod m = false := by
    simp [validServiceMethod, h1, h2]
  simp [setServiceMethod, hv]

/-- Witness for C8: the empty string and the test's `"not correct"` both
fail with `BadServiceMethod` on the concrete user, leaving it unchanged. -/
theorem c8_set_service_method_witness :
    setServiceMethod userW "" = (userW, some errBadService) ∧
    setServiceMethod userW "not correct" = (userW, some errBadService) :=
  ⟨c8_set_service_method userW "" (by decide) (by decide),
   c8_set_service_method userW "not correct" (by decide) (by decide)⟩

theorem c7_first_call (env : UserAddress → String → Nat)
    (st : LocatorState) (m : String) (a : UserAddress) (rest : List UserAddress)
    (haddr : st.user.addresses = a :: rest) (hm : validServiceMethod m = true) :
    ∃ s st1, nearestStore env st m = Except.ok (s, st1) ∧
      st1.user.addresses = a :: rest ∧
      st1.user.store = some s ∧
      s.userAddress = a ∧ s.userService = m := by
  have hda : defaultAddress st.user = some a := by simp [defaultAddress, haddr]
  cases hstore : st.user.store with
  | none =>
    refine ⟨(performLookup env st a m).1, (performLookup env st a m).2, ?_, ?_, ?_, rfl, rfl⟩
    · simp [nearestStore, hda, hm, hstore]
    · simp [performLookup, haddr]
    · simp [performLookup]
  | some s0 =>
    by_cases hmatch : s0.userAddress = a ∧ s0.userService = m
    · exact ⟨s0, st, by simp [nearestStore, hda, hm, hstore, hmatch.1, hmatch.2],
        haddr, hstore, hmatch.1, hmatch.2⟩
    · refine ⟨(performLookup env st a m).1, (performLookup env st a m).2, ?_, ?_, ?_, rfl, rfl⟩
      · simp [nearestStore, hda, hm, hstore, hmatch]
      · simp [performLookup, haddr]
      · simp [performLookup]

theorem nearestStore_hit (env : UserAddress → String → Nat)
    (st1 : LocatorState) (m : String) (a : UserAddress) (rest : List UserAddress)
    (s : DawgStore)
    (haddr : st1.user.addresses = a :: rest) (hm : validServiceMethod m = true)
    (hs : st1.user.store = some s) (h1 : s.userAddress = a) (h2 : s.userService = m) :
    nearestStore env st1 m = Except.ok (s, st1) := by
  have hda : defaultAddress st1.user = some a := by simp [defaultAddress, haddr]
  simp [nearestStore, hda, hm, hs, h1, h2]

theorem nearestStore_miss (env : UserAddress → String → Nat)
    (st1 : LocatorState) (m2 : String) (a2 : UserAddress) (rest : List UserAddress)
    (s : DawgStore)
    (haddr : st1.user.addresses = a2 :: rest) (hm : validServiceMethod m2 = true)
    (hs : st1.user.store = some s)
    (hne : ¬(s.userAddress = a2 ∧ s.userService = m2)) :
    nearestStore env st1 m2 = Except.ok (performLookup env st1 a2 m2) ∧
    (performLookup env st1 a2 m2).2.lookups = st1.lookups + 1 := by
  have hda : defaultAddress st1.user = some a2 := by simp [defaultAddress, haddr]
  exact ⟨by simp [nearestStore, hda, hm, hs, hne], rfl⟩

/-- C7: for every user with a non-empty address list and valid service
method, calling `NearestStore` twice with the address and service method
unchanged returns the identical memoized store on both calls with no
second lookup against the ordering API (the locator state, including the
lookup count, is unchanged); calling with a different service method, or
after the default address changed, misses the memo and forces exactly one
new lookup. -/
theorem c7_nearest_store_memo (env : UserAddress → String → Nat)
    (st : LocatorState) (m : String) (a : UserAddress) (rest : List UserAddress)
    (haddr : st.user.addresses = a :: rest) (hm : validServiceMethod m = true) :
    ∃ s st1, nearestStore env st m = Except.ok (s, st1) ∧
      nearestStore env st1 m = Except.ok (s, st1) ∧
      st1.user.store = some s ∧
      (∀ m2, validServiceMethod m2 = true → m2 ≠ m →
        ∃ s2 st2, nearestStore env st1 m2 = Except.ok (s2, st2) ∧
          st2.lookups = st1.lookups + 1) ∧
      (∀ a2, a2 ≠ a →
        ∃ s2 st2,
          nearestStore env
            { st1 with user := { st1.user with addresses := a2 :: rest } } m
            = Except.ok (s2, st2) ∧
          st2.lookups = st1.lookups + 1) := by
  obtain ⟨s, st1, hcall, haddr1, hstore1, hA, hM⟩ :=
    c7_first_call env st m a rest haddr hm
  refine ⟨s, st1, hcall,
    nearestStore_hit env st1 m a rest s haddr1 hm hstore1 hA hM, hstore1, ?_, ?_⟩
  · intro m2 hm2 hne
    have hne2 : ¬(s.userAddress = a ∧ s.userService = m2) := by
      intro hh
      exact hne (hh.2.symm.trans hM)
    obtain ⟨heq, hlk⟩ := nearestStore_miss env st1 m2 a rest s haddr1 hm2 hstore1 hne2
    exact ⟨_, _, heq, hlk⟩
  · intro a2 hne
    have hne2 : ¬(s.userAddress = a2 ∧ s.userService = m) := by
      intro hh
      exact hne (hh.1.symm.trans hA)
    obtain ⟨heq, hlk⟩ :=
      nearestStore_miss env
        { st1 with user := { st1.user with addresses := a2 :: rest } }
        m a2 rest s rfl hm hstore1 hne2
    exact ⟨_, _, heq, hlk⟩

/-- Witness for C7: on the concrete one-address user with no lookups yet,
both `Delivery` calls return the same store and state. -/
theorem c7_nearest_store_memo_witness :
    ∃ s st1, nearestStore envW locatorW "Delivery" = Except.ok (s, st1) ∧
      nearestStore envW st1 "Delivery" = Except.ok (s, st1) := by
  obtain ⟨s, st1, h1, h2, _⟩ :=
    c7_nearest_store_memo envW locatorW "Delivery" ⟨"s", "c", "st", "z"⟩ [] rfl (by decide)
  exact ⟨s, st1, h1, h2⟩

end Apizza
